import Mathlib

/-!
Shallow embedding of the rsym tool (`src/sdk/tools/rsym/rsym.c`): the
symbol-entry comparator, the string-intern table, the STABS and COFF
decoders, the stab/coff merger, and the ELF short-circuit of `main`.

Conventions of the embedding:
* Machine integers are `Nat`; 32-bit wraparound is written explicitly with
  `% u32` where the C code can overflow (addresses, the DJB hash).
* `qsort` with `CompareSymEntry` is modelled by `List.insertionSort` over the
  order `symCmpLE a b := compareSymEntry a b ≤ 0`: it produces a permutation
  of its input that is pairwise ordered by the comparator, which is all the C
  standard guarantees about `qsort`'s output.
* Byte buffers are `List Char` (for string data) or `List Nat` (raw file
  bytes); C strings are NUL-terminated slices of such buffers.
* Fallible C functions (non-zero return plus `fprintf`) become `Except`.
* The read of `CoffSymbols[CoffIndex + 1]` in `MergeStabsAndCoffs` is kept
  total by `Option`-style indexing; the out-of-range branch sets the
  `coffOutOfRangeRead` flag of the result (in C this branch reads past the
  end of the allocation).
-/

namespace Rsym

/-- Modulus of 32-bit unsigned arithmetic (`ULONG` values in the source). -/
def u32 : Nat := 4294967296

/-- The NUL byte, terminator of C strings. -/
def NUL : Char := Char.ofNat 0

/-- ROSSYM_ENTRY: one row of the `.rossym` line table (rsym.h is not under
src/; the four u32 fields are taken from spec §3 and §6). -/
structure RosSymEntry where
  Address : Nat
  FileOffset : Nat
  FunctionOffset : Nat
  SourceLine : Nat
deriving DecidableEq

/-- The all-zero ROSSYM_ENTRY (`memset(..., 0, sizeof(*Current))`). -/
def zeroEntry : RosSymEntry := ⟨0, 0, 0, 0⟩

/-- CompareSymEntry (rsym.c lines 113-137), the qsort comparator. -/
def compareSymEntry (e1 e2 : RosSymEntry) : Int :=
  if e1.Address < e2.Address then -1
  else if e2.Address < e1.Address then 1
  else if e2.SourceLine = 0 then -1
  else if e1.SourceLine = 0 then 1
  else 0

/-- The non-strict order induced by `compareSymEntry`, used to model `qsort`. -/
def symCmpLE (a b : RosSymEntry) : Prop := compareSymEntry a b ≤ 0

instance : DecidableRel symCmpLE := fun a b =>
  inferInstanceAs (Decidable (compareSymEntry a b ≤ 0))

/-- Model of `qsort(..., CompareSymEntry)`: a permutation of the input that is
pairwise ordered by the comparator. -/
def sortSymbols (l : List RosSymEntry) : List RosSymEntry :=
  List.insertionSort symCmpLE l

/-! ## String-intern table (ComputeDJBHash, AddStringToHash,
StringHashTableInit, FindOrAddString) -/

/-- ComputeDJBHash (rsym.c lines 50-62): `val = 5381; val = 33*val + name[i]`
on `unsigned int`. Characters are taken as their (non-negative) code points;
the names interned by the tool are ASCII. -/
def computeDJBHash (s : String) : Nat :=
  s.data.foldl (fun val c => (33 * val + c.toNat) % u32) 5381

/-- The bucket structure of `struct StringHashTable`. A chain entry of bucket
`b` is recorded as `(b, offset, string)`; entries are prepended exactly as
`AddStringToHash` prepends to `Table[hash]`, so scanning this list for the
first element with the right bucket and string visits the same entries in the
same order as walking the C bucket chain. -/
structure StringHashTable where
  tableSize : Nat
  entries : List (Nat × Nat × String)
deriving DecidableEq

/-- AddStringToHash (rsym.c lines 64-75): prepend an entry to its bucket. -/
def addStringToHash (t : StringHashTable) (hash off : Nat) (s : String) :
    StringHashTable :=
  { t with entries := (hash, off, s) :: t.entries }

/-- The chain walk of FindOrAddString (rsym.c lines 208-211): first entry of
bucket `h` whose string equals `s`. -/
def findInChain : List (Nat × Nat × String) → Nat → String → Option Nat
  | [], _, _ => none
  | (b, off, str) :: rest, h, s =>
    if b = h ∧ str = s then some off else findInChain rest h s

/-- The string blob (`StringsBase`/`*StringsLength`) together with its hash
table. The C code threads the buffer and the length separately; every write
goes through `FindOrAddString`, which appends at offset `*StringsLength`, so
the blob list and the length stay identified (`length = blob.length`). -/
structure StringBlobState where
  table : StringHashTable
  blob : List Char
deriving DecidableEq

/-- FindOrAddString (rsym.c lines 201-228): return the recorded offset when
the string is already in the table, otherwise append the string plus a NUL at
the end of the blob, record the new offset, and return it. -/
def findOrAddString (st : StringBlobState) (s : String) :
    Nat × StringBlobState :=
  let h := computeDJBHash s % st.table.tableSize
  match findInChain st.table.entries h s with
  | some off => (off, st)
  | none =>
    let off := st.blob.length
    (off, { table := addStringToHash st.table h off s,
            blob := st.blob ++ s.data ++ [NUL] })

/-- Split a blob into its NUL-terminated strings with their offsets, in
increasing offset order (the `while (Start < End)` walk of
`StringHashTableInit`). A trailing chunk without NUL is ended by the end of
the buffer. -/
def splitBlobAux : List Char → Nat → List Char → List (Nat × String)
  | [], start, acc => if acc.isEmpty then [] else [(start, ⟨acc⟩)]
  | c :: rest, start, acc =>
    if c = NUL then (start, ⟨acc⟩) :: splitBlobAux rest (start + acc.length + 1) []
    else splitBlobAux rest start (acc ++ [c])

/-- StringHashTableInit (rsym.c lines 77-94): 1024 buckets, seeded with every
string already in the blob; each insertion prepends to its bucket. -/
def stringHashTableInit (blob : List Char) : StringHashTable :=
  { tableSize := 1024,
    entries := (splitBlobAux blob 0 []).foldl
      (fun es p => (computeDJBHash p.2 % 1024, p.1, p.2) :: es) [] }

/-- Fresh intern state over an existing blob, as built at the top of
ConvertStabs and ConvertCoffs. -/
def initStrings (blob : List Char) : StringBlobState :=
  { table := stringHashTableInit blob, blob := blob }

/-! ## STABS decoder (ConvertStabs) -/

/-- STAB_ENTRY fields used by the decoder (rsym.h is not under src/; the
field list and widths are from spec §4.C). -/
structure StabEntry where
  n_strx : Nat
  n_type : Nat
  n_desc : Nat
  n_value : Nat
deriving DecidableEq

/-- Modelled from the spec: STAB type codes named in §4.C (values are the
standard STABS codes; rsym.h is not under src/, and no claim depends on the
numeric values, only on the codes being distinct). -/
def N_FUN : Nat := 0x24

/-- Standard STABS code for a source line record. -/
def N_SLINE : Nat := 0x44

/-- Standard STABS code for a source file record. -/
def N_SO : Nat := 0x64

/-- Standard STABS code for an included source file record. -/
def N_SOL : Nat := 0x84

/-- Standard STABS code for a begin-include record. -/
def N_BINCL : Nat := 0x82

/-- The NUL-terminated C string starting at byte `off` of a buffer. -/
def cstringAt (blob : List Char) (off : Nat) : List Char :=
  (blob.drop off).takeWhile (fun c => c ≠ NUL)

/-- Address derivation of ConvertStabs (rsym.c lines 273-280): when no
function is open the address is `n_value - ImageBase` (32-bit wraparound),
otherwise `LastFunctionAddress + n_value`. -/
def stabAddress (lastFn imageBase nValue : Nat) : Nat :=
  if lastFn = 0 then (nValue + (u32 - imageBase % u32)) % u32
  else (lastFn + nValue) % u32

/-- The `name` of an N_FUN record: prefix of the record's string up to the
first `:` (`strcspn(Name, ":")`, rsym.c line 326). -/
def stabFunctionName (stabstr : List Char) (strx : Nat) : List Char :=
  (cstringAt stabstr strx).takeWhile (fun c => c ≠ ':')

/-- The running state of the ConvertStabs record loop: the `First` flag, the
row under construction (`*Current`), the finished rows (most recent first;
`Current[-1]` is the head of `rows`), `LastFunctionAddress`, and the intern
state. -/
structure StabState where
  first : Bool
  cur : RosSymEntry
  rows : List RosSymEntry
  lastFunctionAddress : Nat
  strings : StringBlobState
deriving DecidableEq

/-- Row start for the N_SO/N_SOL/N_BINCL branch (rsym.c lines 294-304): a new
row inherits the previous row's FunctionOffset. -/
def startRowSO (s : StabState) (addr : Nat) : StabState :=
  if s.first ∨ addr ≠ s.cur.Address then
    if s.first then
      { s with first := false, cur := { s.cur with Address := addr } }
    else
      { s with rows := s.cur :: s.rows,
               cur := { Address := addr, FileOffset := 0,
                        FunctionOffset := s.cur.FunctionOffset, SourceLine := 0 } }
  else s

/-- Row start for the N_FUN branch (rsym.c lines 316-324): a new row inherits
the previous row's FileOffset. In the `First` case the C code copies
`Current[-1].FileOffset` from before the array; that indeterminate value is
modelled as 0. -/
def startRowFUN (s : StabState) (addr : Nat) : StabState :=
  if s.first ∨ addr ≠ s.cur.Address then
    if s.first then
      { s with first := false,
               cur := { s.cur with Address := addr, FileOffset := 0 } }
    else
      { s with rows := s.cur :: s.rows,
               cur := { Address := addr, FileOffset := s.cur.FileOffset,
                        FunctionOffset := 0, SourceLine := 0 } }
  else s

/-- Row start for the N_SLINE branch (rsym.c lines 343-354): a new row
inherits FileOffset and FunctionOffset. -/
def startRowSLINE (s : StabState) (addr : Nat) : StabState :=
  if s.first ∨ addr ≠ s.cur.Address then
    if s.first then
      { s with first := false, cur := { s.cur with Address := addr } }
    else
      { s with rows := s.cur :: s.rows,
               cur := { Address := addr, FileOffset := s.cur.FileOffset,
                        FunctionOffset := s.cur.FunctionOffset, SourceLine := 0 } }
  else s

/-- Errors of the tool that the embedded components can raise (spec §7). -/
inductive RsymError
  | NameTooLong
  | MalformedImage
deriving DecidableEq

/-- One iteration of the ConvertStabs record loop (rsym.c lines 271-360):
derive the address, dispatch on `n_type`, update the row chain, the intern
state and `LastFunctionAddress`. -/
def processStabRecord (imageBase : Nat) (stabstr : List Char) (s : StabState)
    (e : StabEntry) : Except RsymError StabState :=
  let addr := stabAddress s.lastFunctionAddress imageBase e.n_value
  if e.n_type = N_SO ∨ e.n_type = N_SOL ∨ e.n_type = N_BINCL then
    let name := cstringAt stabstr e.n_strx
    if stabstr.length < e.n_strx ∨ name = [] ∨ name.getLast? = some '/' ∨
        name.getLast? = some '\\' ∨ e.n_value < imageBase then
      .ok s
    else
      let s1 := startRowSO s addr
      let r := findOrAddString s1.strings ⟨name⟩
      .ok { s1 with cur := { s1.cur with FileOffset := r.1 }, strings := r.2 }
  else if e.n_type = N_FUN then
    if e.n_desc = 0 ∨ e.n_value < imageBase then
      .ok { s with lastFunctionAddress := 0 }
    else
      let s1 := startRowFUN s addr
      let name := stabFunctionName stabstr e.n_strx
      if 256 ≤ name.length then .error .NameTooLong
      else
        let r := findOrAddString s1.strings ⟨name⟩
        .ok { s1 with
              cur := { s1.cur with FunctionOffset := r.1, SourceLine := 0 },
              strings := r.2, lastFunctionAddress := addr }
  else if e.n_type = N_SLINE then
    let s1 := startRowSLINE s addr
    .ok { s1 with cur := { s1.cur with SourceLine := e.n_desc } }
  else .ok s

/-- Initial state of the ConvertStabs loop: `First = 1`, the current row
zeroed by the initial `memset`, no previous rows, no open function, and the
hash table seeded from the existing blob. -/
def initialStabState (blob : List Char) : StabState :=
  { first := true, cur := zeroEntry, rows := [], lastFunctionAddress := 0,
    strings := initStrings blob }

/-- The ConvertStabs record loop over the whole record array. -/
def convertStabsLoop (imageBase : Nat) (stabstr : List Char) :
    StabState → List StabEntry → Except RsymError StabState
  | s, [] => .ok s
  | s, e :: rest =>
    match processStabRecord imageBase stabstr s e with
    | .error err => .error err
    | .ok s1 => convertStabsLoop imageBase stabstr s1 rest

/-- ConvertStabs (rsym.c lines 230-368): run the record loop, count
`Current - base + 1` rows (the current row is always included), and qsort
them with CompareSymEntry. -/
def convertStabs (imageBase : Nat) (stabstr : List Char)
    (entries : List StabEntry) (blob : List Char) :
    Except RsymError (List RosSymEntry × List Char) :=
  if entries = [] then .ok ([], blob)
  else
    match convertStabsLoop imageBase stabstr (initialStabState blob) entries with
    | .error err => .error err
    | .ok s => .ok (sortSymbols ((s.cur :: s.rows).reverse), s.strings.blob)

/-! ## COFF decoder (ConvertCoffs) -/

/-- COFF_SYMENT fields used by the decoder (rsym.h is not under src/; fields
and widths from spec §4.D). `e_zeroes`/`e_offset`/`e_name` model the name
union; `e_scnum` is a signed 16-bit section number. -/
structure CoffSymbol where
  e_zeroes : Nat
  e_offset : Nat
  e_name : String
  e_value : Nat
  e_scnum : Int
  e_type : Nat
  e_sclass : Nat
  e_numaux : Nat
deriving DecidableEq

/-- Modelled from the spec: `ISFCN` of the standard COFF headers
(`(e_type & N_TMASK) == (DT_FCN << N_BTSHFT)`), "type field indicates
function" (spec §4.D); rsym.h is not under src/. -/
def ISFCN (t : Nat) : Bool := t &&& 0x30 = 0x20

/-- Modelled from the spec: `C_EXT`, the standard COFF external storage
class, "external storage class" (spec §4.D); rsym.h is not under src/. -/
def C_EXT : Nat := 2

/-- Truncation at the last `@` (`strrchr(FuncName, '@')`, rsym.c lines
436-440); a string without `@` is unchanged. -/
def truncAtLastAt (cs : List Char) : List Char :=
  if '@' ∈ cs then ((cs.reverse.dropWhile (fun c => c ≠ '@')).drop 1).reverse
  else cs

/-- Stdcall demangling (rsym.c lines 435-441): strip from the last `@`
onward, then drop a leading `_` or `@`. -/
def demangle (cs : List Char) : List Char :=
  match truncAtLastAt cs with
  | [] => []
  | c :: rest => if c = '_' ∨ c = '@' then rest else c :: rest

/-- Raw symbol name of a COFF record (rsym.c lines 418-433): the COFF string
table at `e_offset` when `e_zeroes == 0` (failing when 256 bytes or longer),
otherwise the inline 8-byte name NUL-padded to a C string. -/
def coffName (strtab : List Char) (e : CoffSymbol) :
    Except RsymError (List Char) :=
  if e.e_zeroes = 0 then
    let n := cstringAt strtab e.e_offset
    if 256 ≤ n.length then .error .NameTooLong else .ok n
  else .ok ((e.e_name.data.take 8).takeWhile (fun c => c ≠ NUL))

/-- Address of a COFF record (rsym.c lines 403-416): `e_value` plus the
virtual address of section `e_scnum` when `e_scnum > 0` (an out-of-range
section number is a malformed image); `e_value` as-is otherwise. `sections`
is the list of section VirtualAddress values. -/
def coffAddress (sections : List Nat) (e : CoffSymbol) : Except RsymError Nat :=
  if 0 < e.e_scnum then
    if (sections.length : Int) < e.e_scnum then .error .MalformedImage
    else .ok ((e.e_value + sections.getD (e.e_scnum.toNat - 1) 0) % u32)
  else .ok (e.e_value % u32)

/-- The ConvertCoffs record loop (rsym.c lines 399-451). The first argument
counts auxiliary records still to be skipped (`i += e_numaux`). Each accepted
record emits `{address, 0, demangled-name-offset, 0}`. -/
def convertCoffsLoop (sections : List Nat) (strtab : List Char) :
    Nat → StringBlobState → List CoffSymbol →
    Except RsymError (List RosSymEntry × StringBlobState)
  | _, st, [] => .ok ([], st)
  | Nat.succ skip, st, _ :: rest => convertCoffsLoop sections strtab skip st rest
  | 0, st, e :: rest =>
    if ISFCN e.e_type ∨ e.e_sclass = C_EXT then
      match coffAddress sections e with
      | .error err => .error err
      | .ok addr =>
        match coffName strtab e with
        | .error err => .error err
        | .ok nm =>
          match convertCoffsLoop sections strtab e.e_numaux
              (findOrAddString st ⟨demangle nm⟩).2 rest with
          | .error err => .error err
          | .ok (rows, st2) =>
            .ok (⟨addr, 0, (findOrAddString st ⟨demangle nm⟩).1, 0⟩ :: rows,
                 st2)
    else convertCoffsLoop sections strtab e.e_numaux st rest

/-- Number of COFF records the decoder accepts (`ISFCN(e_type)` or
`e_sclass == C_EXT`), with the same auxiliary-record skipping as the loop. -/
def acceptedCoffCountAux : Nat → List CoffSymbol → Nat
  | _, [] => 0
  | Nat.succ skip, _ :: rest => acceptedCoffCountAux skip rest
  | 0, e :: rest =>
    (if ISFCN e.e_type ∨ e.e_sclass = C_EXT then 1 else 0) +
      acceptedCoffCountAux e.e_numaux rest

/-- Number of accepted records of a COFF symbol array. -/
def acceptedCoffCount (syms : List CoffSymbol) : Nat :=
  acceptedCoffCountAux 0 syms

/-- ConvertCoffs before the final qsort: the accepted rows in record order
followed by the extra trailing entry (`*SymbolsCount = Current - base + 1`).
After at least one accepted record that entry is the `memset`-zeroed slot
beyond the last row; with no accepted record the C count still includes one
(then-uninitialized) slot, modelled as the same all-zero entry. -/
def convertCoffsUnsorted (sections : List Nat) (strtab : List Char)
    (syms : List CoffSymbol) (blob : List Char) :
    Except RsymError (List RosSymEntry × StringBlobState) :=
  match convertCoffsLoop sections strtab 0 (initStrings blob) syms with
  | .error err => .error err
  | .ok (rows, st) => .ok (rows ++ [zeroEntry], st)

/-- ConvertCoffs (rsym.c lines 370-459): the unsorted vector, qsorted with
CompareSymEntry. -/
def convertCoffs (sections : List Nat) (strtab : List Char)
    (syms : List CoffSymbol) (blob : List Char) :
    Except RsymError (List RosSymEntry × StringBlobState) :=
  match convertCoffsUnsorted sections strtab syms blob with
  | .error err => .error err
  | .ok (pre, st) => .ok (sortSymbols pre, st)

/-! ## Merger (MergeStabsAndCoffs) -/

/-- Result of the merger: the merged table plus a flag recording whether the
coff-advance loop evaluated `CoffSymbols[CoffIndex + 1]` with
`CoffIndex + 1` out of range (rsym.c lines 763-767 guard only
`CoffIndex < CoffSymbolsCount` before that read). -/
structure MergeResult where
  merged : List RosSymEntry
  coffOutOfRangeRead : Bool
deriving DecidableEq

/-- The coff-advance loop (rsym.c lines 763-767):
`while (CoffIndex < CoffSymbolsCount && CoffSymbols[CoffIndex+1].Address <= addr) CoffIndex++`.
`rest` is the coff vector from index `idx + 1` on; when it is exhausted while
`idx < count` still holds, the C code reads one entry past the vector — the
model stops there and reports the out-of-range read. -/
def advanceCoffAux (count addr : Nat) : Nat → List RosSymEntry → Nat × Bool
  | idx, [] => if idx < count then (idx, true) else (idx, false)
  | idx, e :: rest =>
    if idx < count then
      if e.Address ≤ addr then advanceCoffAux count addr (idx + 1) rest
      else (idx, false)
    else (idx, false)

/-- The forward-collapse of a duplicate-address stab row into the current
merged row (rsym.c lines 744-760): for each field, the first non-zero value
wins. -/
def foldDup (cur e : RosSymEntry) : RosSymEntry :=
  { cur with
    FileOffset := if e.FileOffset ≠ 0 ∧ cur.FileOffset = 0 then e.FileOffset
                  else cur.FileOffset,
    FunctionOffset := if e.FunctionOffset ≠ 0 ∧ cur.FunctionOffset = 0 then
                        e.FunctionOffset
                      else cur.FunctionOffset,
    SourceLine := if e.SourceLine ≠ 0 ∧ cur.SourceLine = 0 then e.SourceLine
                  else cur.SourceLine }

/-- The per-group tail of a merge iteration (rsym.c lines 763-782): advance
the coff index, possibly override the merged row's FunctionOffset with the
pending coff row and zero that coff row's offsets, and maintain
`StabFunctionStartAddress` / `StabFunctionStringOffset`. Returns the emitted
row, the (possibly mutated) coff vector, the new coff index, the two
trackers, and the out-of-range flag. -/
def mergeStep (cur : RosSymEntry) (coff : List RosSymEntry)
    (coffIdx stabFnStart stabFnStrOff : Nat) (oob : Bool) :
    RosSymEntry × List RosSymEntry × Nat × Nat × Nat × Bool :=
  let a := advanceCoffAux coff.length cur.Address coffIdx (coff.drop (coffIdx + 1))
  let idx := a.1
  let newOff := cur.FunctionOffset
  let coffAt := coff.getD idx zeroEntry
  if 0 < coff.length ∧ coffAt.Address < cur.Address ∧
      stabFnStart < coffAt.Address ∧ coffAt.FunctionOffset ≠ 0 then
    let cur1 := { cur with FunctionOffset := coffAt.FunctionOffset }
    let coff1 := coff.set idx { coffAt with FileOffset := 0, FunctionOffset := 0 }
    (cur1, coff1, idx,
     if stabFnStrOff ≠ newOff then cur1.Address else stabFnStart, newOff,
     oob || a.2)
  else
    (cur, coff, idx,
     if stabFnStrOff ≠ newOff then cur.Address else stabFnStart, newOff,
     oob || a.2)

/-- The outer stab loop of MergeStabsAndCoffs (rsym.c lines 741-783): `cur`
is the merged row being built (`StabSymbols[StabIndex]` with duplicates
folded in); a stab row with the same address is folded, a different address
finishes the group with `mergeStep` and starts the next one. -/
def mergeLoopAux :
    RosSymEntry → List RosSymEntry → List RosSymEntry → Nat → Nat → Nat →
    Bool → List RosSymEntry × List RosSymEntry × Bool
  | cur, [], coff, coffIdx, stabFnStart, stabFnStrOff, oob =>
    let r := mergeStep cur coff coffIdx stabFnStart stabFnStrOff oob
    ([r.1], r.2.1, r.2.2.2.2.2)
  | cur, e :: rest, coff, coffIdx, stabFnStart, stabFnStrOff, oob =>
    if e.Address = cur.Address then
      mergeLoopAux (foldDup cur e) rest coff coffIdx stabFnStart stabFnStrOff oob
    else
      let r := mergeStep cur coff coffIdx stabFnStart stabFnStrOff oob
      let t := mergeLoopAux e rest r.2.1 r.2.2.1 r.2.2.2.1 r.2.2.2.2.1 r.2.2.2.2.2
      (r.1 :: t.1, t.2.1, t.2.2)

/-- MergeStabsAndCoffs (rsym.c lines 715-798): empty stab input yields an
empty table; otherwise run the stab pass, append every remaining coff row
with non-zero Address and FunctionOffset, and qsort with CompareSymEntry. -/
def mergeStabsAndCoffs (stab coff : List RosSymEntry) : MergeResult :=
  match stab with
  | [] => { merged := [], coffOutOfRangeRead := false }
  | e :: rest =>
    let t := mergeLoopAux e rest coff 0 0 0 false
    { merged := sortSymbols (t.1 ++ t.2.1.filter
        (fun x => decide (x.Address ≠ 0) && decide (x.FunctionOffset ≠ 0))),
      coffOutOfRangeRead := t.2.2 }

/-- Size of the `.rossym` section (rsym.c lines 1478-1487): nothing when the
merged table is empty, otherwise the 16-byte SYMBOLFILE_HEADER plus the
16-byte entries plus the string blob. -/
def rosSymLength (mergedCount stringsLength : Nat) : Nat :=
  if mergedCount = 0 then 0 else 16 + 16 * mergedCount + stringsLength

/-! ## The front end of main: DOS magic check and ELF short-circuit -/

/-- Outcome of the header check at the top of `main` (rsym.c lines
1309-1320). The output file is only opened later (line 1519), so both exit
outcomes happen with no output file written. -/
inductive MainOutcome
  | exitSuccessNoOutput
  | exitFailureNoOutput
  | continuePipeline
deriving DecidableEq

/-- Modelled from the spec: IMAGE_DOS_MAGIC, the `MZ` magic verified by the
PE reader (spec §4.B); the PE header definitions are not under src/. -/
def IMAGE_DOS_MAGIC : Nat := 0x5A4D

/-- The four ELF magic bytes `\x7f E L F` (rsym.c line 1256). -/
def elfMagic : List Nat := [0x7F, 0x45, 0x4C, 0x46]

/-- Little-endian 16-bit read from a byte list (missing bytes read as 0). -/
def readU16LE (bytes : List Nat) (off : Nat) : Nat :=
  bytes.getD off 0 % 256 + 256 * (bytes.getD (off + 1) 0 % 256)

/-- Little-endian 32-bit read from a byte list. -/
def readU32LE (bytes : List Nat) (off : Nat) : Nat :=
  readU16LE bytes off + 65536 * readU16LE bytes (off + 2)

/-- The header check of `main` (rsym.c lines 1310-1320): a file whose DOS
magic is wrong or whose `e_lfanew` is zero is rejected — except that a file
starting with the ELF magic exits with status 0; every exit here happens
before the output file is created. `e_lfanew` sits at byte offset 60 of the
DOS header. -/
def checkImageHeader (bytes : List Nat) : MainOutcome :=
  if readU16LE bytes 0 ≠ IMAGE_DOS_MAGIC ∨ readU32LE bytes 60 = 0 then
    if bytes.take 4 = elfMagic then .exitSuccessNoOutput
    else .exitFailureNoOutput
  else .continuePipeline

/-! ## Properties of the comparator order -/

theorem symCmpLE_iff (a b : RosSymEntry) :
    symCmpLE a b ↔ a.Address < b.Address ∨
      (a.Address = b.Address ∧ (b.SourceLine = 0 ∨ a.SourceLine ≠ 0)) := by
  unfold symCmpLE compareSymEntry
  split_ifs with h1 h2 h3 h4 <;> norm_num <;> omega

instance : IsTotal RosSymEntry symCmpLE :=
  ⟨fun a b => by rw [symCmpLE_iff, symCmpLE_iff]; omega⟩

instance : IsTrans RosSymEntry symCmpLE :=
  ⟨fun a b c hab hbc => by
    rw [symCmpLE_iff] at hab hbc ⊢; omega⟩

theorem sortSymbols_sorted (l : List RosSymEntry) :
    (sortSymbols l).Pairwise symCmpLE :=
  List.sorted_insertionSort symCmpLE l

theorem sortSymbols_perm (l : List RosSymEntry) : (sortSymbols l).Perm l :=
  List.perm_insertionSort symCmpLE l

/-! ## Claim theorems -/

/-- C9: at equal addresses, when both entries have SourceLine 0 the
comparator answers -1 in both argument orders (the `SymEntry2->SourceLine
== 0` test fires first either way), so it is not antisymmetric and gives no
consistent order for distinct rows with equal address and line 0. -/
theorem compareSymEntry_bothLineZero (a b : RosSymEntry)
    (hAddr : a.Address = b.Address) (ha : a.SourceLine = 0)
    (hb : b.SourceLine = 0) :
    compareSymEntry a b = -1 ∧ compareSymEntry b a = -1 := by
  constructor <;> simp [compareSymEntry, hAddr, ha, hb]

/-- Witness for C9 at two distinct concrete rows sharing address 0x1000. -/
theorem compareSymEntry_bothLineZero_witness :
    compareSymEntry ⟨4096, 0, 0, 0⟩ ⟨4096, 0, 9, 0⟩ = -1 ∧
    compareSymEntry ⟨4096, 0, 9, 0⟩ ⟨4096, 0, 0, 0⟩ = -1 :=
  compareSymEntry_bothLineZero _ _ rfl rfl rfl

/-- C8: an input file whose first four bytes are the ELF magic
`7F 45 4C 46` makes `main` exit with status 0 before the output file is
ever created (the DOS-magic test fails, the `memcmp` against `elfhdr`
succeeds, and `exit(0)` runs at rsym.c line 1316 while the output is only
opened at line 1519). -/
theorem elf_input_exitsSuccess_noOutput (bytes : List Nat)
    (h : bytes.take 4 = elfMagic) :
    checkImageHeader bytes = MainOutcome.exitSuccessNoOutput := by
  obtain ⟨rest, hb⟩ : ∃ rest, bytes = 0x7F :: 0x45 :: 0x4C :: 0x46 :: rest :=
    ⟨bytes.drop 4, by
      conv_lhs => rw [← List.take_append_drop 4 bytes, h]
      rfl⟩
  subst hb
  have h1 : readU16LE (0x7F :: 0x45 :: 0x4C :: 0x46 :: rest) 0 ≠
      IMAGE_DOS_MAGIC := by
    simp [readU16LE, IMAGE_DOS_MAGIC]
  unfold checkImageHeader
  rw [if_pos (Or.inl h1), if_pos h]

/-- Witness for C8: the four ELF magic bytes themselves. -/
theorem elf_input_exitsSuccess_noOutput_witness :
    checkImageHeader [0x7F, 0x45, 0x4C, 0x46] =
      MainOutcome.exitSuccessNoOutput :=
  elf_input_exitsSuccess_noOutput _ rfl

/-- C3: the coff-advance loop of the merger is not in bounds: with the
non-empty sorted stab vector `[{0x1000,0,0,0}]` and a coff vector of count 1
its very first test evaluates `CoffSymbols[1]` of a one-element vector, so
the out-of-range branch of the `Option`-indexed access is reached. -/
theorem merge_coffAdvance_readsOutOfRange :
    (mergeStabsAndCoffs [⟨4096, 0, 0, 0⟩]
      [⟨8192, 0, 5, 0⟩]).coffOutOfRangeRead = true := by decide

/-- C1 counterexample: on stab row `{0x1000, line 7}` and coff rows
`{0x1000, line 0}`, `{0x2000, line 0}` the final table places the line-7 row
before the line-0 row at address 0x1000, so rows with `line == 0` do not
precede rows with `line != 0` at the same address. -/
theorem mergedTable_lineZeroFirst_counterexample :
    ¬ (mergeStabsAndCoffs [⟨4096, 0, 0, 7⟩]
        [⟨4096, 0, 5, 0⟩, ⟨8192, 0, 6, 0⟩]).merged.Pairwise
        (fun a b => a.Address = b.Address →
          ¬(a.SourceLine ≠ 0 ∧ b.SourceLine = 0)) := by decide

/-- C1 (amended): the final merged table is sorted by address ascending, and
among rows sharing an address every row with `line != 0` precedes every row
with `line == 0` (the ordering actually established by `qsort` with
`CompareSymEntry`, which treats a `line == 0` row as the greater one at
equal addresses). -/
theorem mergedTable_sorted_lineNonzeroFirst (stab coff : List RosSymEntry) :
    (mergeStabsAndCoffs stab coff).merged.Pairwise
      (fun a b => a.Address < b.Address ∨
        (a.Address = b.Address ∧ ¬(a.SourceLine = 0 ∧ b.SourceLine ≠ 0))) := by
  cases stab with
  | nil => simp [mergeStabsAndCoffs]
  | cons e rest =>
    show (sortSymbols _).Pairwise _
    exact (sortSymbols_sorted _).imp fun hab => by
      rw [symCmpLE_iff] at hab; omega

/-- C2 counterexample: with an empty stab/external row vector and the two
external COFF symbols at 0x1000 and 0x1008 the merger emits zero entries
(not two) and the `.rossym` section is omitted. -/
theorem coffOnly_twoEntries_counterexample :
    (mergeStabsAndCoffs [] [⟨4096, 0, 1, 0⟩, ⟨4104, 0, 2, 0⟩]).merged.length
        = 0 ∧
    rosSymLength
      (mergeStabsAndCoffs [] [⟨4096, 0, 1, 0⟩, ⟨4104, 0, 2, 0⟩]).merged.length
      1 = 0 := by decide

/-- C2 (amended): when the stab/external row vector is empty the merger
returns an empty table no matter what the COFF vector contains
(`MergeStabsAndCoffs` returns immediately at `StabSymbolsCount == 0`), so a
COFF-only image gets no `.rossym` entries and no `.rossym` section at all. -/
theorem merge_emptyStab_emitsNothing (coff : List RosSymEntry)
    (stringsLength : Nat) :
    (mergeStabsAndCoffs [] coff).merged = [] ∧
    rosSymLength (mergeStabsAndCoffs [] coff).merged.length stringsLength
      = 0 := by
  constructor <;> simp [mergeStabsAndCoffs, rosSymLength]

theorem startRowSLINE_cur_address (s : StabState) (addr : Nat) :
    (startRowSLINE s addr).cur.Address = addr := by
  unfold startRowSLINE
  split_ifs with h1 h2 <;> simp_all

/-- C7: an N_SLINE record processed by the STABS decoder lands on a row
whose derived address is `n_value - ImageBase` (32-bit wraparound, expressed
as the unique value below 2^32 with `address + ImageBase ≡ n_value`) when
`LastFunctionAddress` is 0, and `LastFunctionAddress + n_value` otherwise. -/
theorem stabs_derivedAddress (imageBase : Nat) (stabstr : List Char)
    (s : StabState) (e : StabEntry) (ht : e.n_type = N_SLINE) :
    (s.lastFunctionAddress = 0 →
      ∃ s1, processStabRecord imageBase stabstr s e = .ok s1 ∧
        s1.cur.Address < u32 ∧
        (s1.cur.Address + imageBase) % u32 = e.n_value % u32) ∧
    (s.lastFunctionAddress ≠ 0 →
      ∃ s1, processStabRecord imageBase stabstr s e = .ok s1 ∧
        s1.cur.Address = (s.lastFunctionAddress + e.n_value) % u32) := by
  have hso : ¬(e.n_type = N_SO ∨ e.n_type = N_SOL ∨ e.n_type = N_BINCL) := by
    rw [ht]; decide
  have hfun : ¬e.n_type = N_FUN := by rw [ht]; decide
  have heq : processStabRecord imageBase stabstr s e =
      .ok { startRowSLINE s
              (stabAddress s.lastFunctionAddress imageBase e.n_value) with
            cur := { (startRowSLINE s (stabAddress s.lastFunctionAddress
                        imageBase e.n_value)).cur with
                     SourceLine := e.n_desc } } := by
    unfold processStabRecord
    rw [if_neg hso, if_neg hfun, if_pos ht]
  constructor
  · intro h0
    refine ⟨_, heq, ?_, ?_⟩
    · show (startRowSLINE s _).cur.Address < u32
      rw [startRowSLINE_cur_address]
      simp only [stabAddress, if_pos h0]
      exact Nat.mod_lt _ (by norm_num [u32])
    · show ((startRowSLINE s _).cur.Address + imageBase) % u32
          = e.n_value % u32
      rw [startRowSLINE_cur_address]
      simp only [stabAddress, if_pos h0]
      unfold u32
      omega
  · intro h0
    refine ⟨_, heq, ?_⟩
    show (startRowSLINE s _).cur.Address = _
    rw [startRowSLINE_cur_address]
    simp only [stabAddress, if_neg h0]

/-- Witness for C7: an N_SLINE record at `n_value = 0x1064` against image
base 0x1000 with no open function. -/
theorem stabs_derivedAddress_witness :
    ∃ s1, processStabRecord 4096 [] (initialStabState [NUL])
            ⟨0, 0x44, 7, 4196⟩ = .ok s1 ∧
      s1.cur.Address < u32 ∧
      (s1.cur.Address + 4096) % u32 = 4196 % u32 :=
  (stabs_derivedAddress 4096 [] (initialStabState [NUL])
    ⟨0, 0x44, 7, 4196⟩ rfl).1 rfl

/-- C5: for an N_FUN record that begins a function (`n_desc != 0` and
`n_value >= ImageBase`), the decoder fails with NameTooLong exactly when the
function name — the prefix of the record's string up to the first `:` — is
longer than 255 bytes; a name of at most 255 bytes is accepted and interned
(the row's FunctionOffset is the offset returned by FindOrAddString and the
intern state is updated accordingly). -/
theorem stabs_nfun_nameTooLong (imageBase : Nat) (stabstr : List Char)
    (s : StabState) (e : StabEntry) (ht : e.n_type = N_FUN)
    (hd : e.n_desc ≠ 0) (hv : imageBase ≤ e.n_value) :
    (255 < (stabFunctionName stabstr e.n_strx).length →
      processStabRecord imageBase stabstr s e = .error .NameTooLong) ∧
    ((stabFunctionName stabstr e.n_strx).length ≤ 255 →
      ∃ s1, processStabRecord imageBase stabstr s e = .ok s1 ∧
        s1.cur.FunctionOffset =
          (findOrAddString
            (startRowFUN s (stabAddress s.lastFunctionAddress imageBase
              e.n_value)).strings
            ⟨stabFunctionName stabstr e.n_strx⟩).1 ∧
        s1.strings =
          (findOrAddString
            (startRowFUN s (stabAddress s.lastFunctionAddress imageBase
              e.n_value)).strings
            ⟨stabFunctionName stabstr e.n_strx⟩).2) := by
  have hso : ¬(e.n_type = N_SO ∨ e.n_type = N_SOL ∨ e.n_type = N_BINCL) := by
    rw [ht]; decide
  have hskip : ¬(e.n_desc = 0 ∨ e.n_value < imageBase) := by omega
  constructor
  · intro hlen
    have hnn : 256 ≤ (stabFunctionName stabstr e.n_strx).length := by omega
    unfold processStabRecord
    rw [if_neg hso, if_pos ht, if_neg hskip, if_pos hnn]
  · intro hlen
    have hnn : ¬(256 ≤ (stabFunctionName stabstr e.n_strx).length) := by omega
    refine ⟨{ startRowFUN s
                (stabAddress s.lastFunctionAddress imageBase e.n_value) with
              cur := { (startRowFUN s (stabAddress s.lastFunctionAddress
                          imageBase e.n_value)).cur with
                       FunctionOffset := (findOrAddString
                         (startRowFUN s (stabAddress s.lastFunctionAddress
                           imageBase e.n_value)).strings
                         ⟨stabFunctionName stabstr e.n_strx⟩).1,
                       SourceLine := 0 },
              strings := (findOrAddString
                (startRowFUN s (stabAddress s.lastFunctionAddress imageBase
                  e.n_value)).strings
                ⟨stabFunctionName stabstr e.n_strx⟩).2,
              lastFunctionAddress := stabAddress s.lastFunctionAddress
                imageBase e.n_value }, ?_, rfl, rfl⟩
    unfold processStabRecord
    rw [if_neg hso, if_pos ht, if_neg hskip, if_neg hnn]

/-- Witness for C5: the record string `main:F1`, whose extracted name `main`
has 4 bytes, is accepted and interned. -/
theorem stabs_nfun_nameTooLong_witness :
    ∃ s1, processStabRecord 4096 ("main:F1".data ++ [NUL])
            (initialStabState [NUL]) ⟨0, 0x24, 10, 4200⟩ = .ok s1 ∧
      s1.cur.FunctionOffset =
        (findOrAddString
          (startRowFUN (initialStabState [NUL])
            (stabAddress (initialStabState [NUL]).lastFunctionAddress 4096
              4200)).strings
          ⟨stabFunctionName ("main:F1".data ++ [NUL]) 0⟩).1 ∧
      s1.strings =
        (findOrAddString
          (startRowFUN (initialStabState [NUL])
            (stabAddress (initialStabState [NUL]).lastFunctionAddress 4096
              4200)).strings
          ⟨stabFunctionName ("main:F1".data ++ [NUL]) 0⟩).2 :=
  (stabs_nfun_nameTooLong 4096 ("main:F1".data ++ [NUL])
    (initialStabState [NUL]) ⟨0, 0x24, 10, 4200⟩ rfl (by decide)
    (by decide)).2 (by decide)

/-- C6: the FindOrAddString contract. When the chain scan finds the string,
its recorded offset is returned and the state (in particular the blob and
its length) is unchanged; when it does not, the string plus a trailing NUL
is appended to the blob and the pre-append blob length is returned and
recorded. Consequently interning the same string twice returns equal
offsets. -/
theorem findOrAddString_contract (st : StringBlobState) (s : String)
    (off : Nat) :
    (findInChain st.table.entries (computeDJBHash s % st.table.tableSize) s
        = some off →
      findOrAddString st s = (off, st)) ∧
    (findInChain st.table.entries (computeDJBHash s % st.table.tableSize) s
        = none →
      findOrAddString st s =
        (st.blob.length,
         { table := addStringToHash st.table
             (computeDJBHash s % st.table.tableSize) st.blob.length s,
           blob := st.blob ++ s.data ++ [NUL] })) ∧
    (findOrAddString (findOrAddString st s).2 s).1 =
      (findOrAddString st s).1 := by
  refine ⟨?_, ?_, ?_⟩
  · intro h
    simp only [findOrAddString]
    rw [h]
  · intro h
    simp only [findOrAddString]
    rw [h]
  · cases h : findInChain st.table.entries
        (computeDJBHash s % st.table.tableSize) s with
    | some off2 =>
      have h1 : findOrAddString st s = (off2, st) := by
        simp only [findOrAddString]; rw [h]
      rw [h1, h1]
    | none =>
      have h1 : findOrAddString st s =
          (st.blob.length,
           { table := addStringToHash st.table
               (computeDJBHash s % st.table.tableSize) st.blob.length s,
             blob := st.blob ++ s.data ++ [NUL] }) := by
        simp only [findOrAddString]; rw [h]
      rw [h1]
      simp [findOrAddString, addStringToHash, findInChain]

/-- Witness for C6: interning the empty string into the freshly seeded
table finds the seeded offset 0 and leaves the state unchanged. -/
theorem findOrAddString_contract_witness :
    findOrAddString (initStrings [NUL]) "" = (0, initStrings [NUL]) ∧
    (findOrAddString (findOrAddString (initStrings [NUL]) "").2 "").1 =
      (findOrAddString (initStrings [NUL]) "").1 :=
  ⟨(findOrAddString_contract (initStrings [NUL]) "" 0).1 (by decide),
   (findOrAddString_contract (initStrings [NUL]) "" 0).2.2⟩

/-! ## Structure of the merged table (for C4) -/

theorem foldDup_address (cur e : RosSymEntry) :
    (foldDup cur e).Address = cur.Address := rfl

theorem mergeStep_fst_address (cur : RosSymEntry) (coff : List RosSymEntry)
    (ci a b : Nat) (ob : Bool) :
    (mergeStep cur coff ci a b ob).1.Address = cur.Address := by
  simp only [mergeStep]
  split_ifs <;> rfl

theorem getD_sourceLine_zero (coff : List RosSymEntry)
    (h : ∀ x ∈ coff, x.SourceLine = 0) (i : Nat) :
    (coff.getD i zeroEntry).SourceLine = 0 := by
  rw [List.getD_eq_getElem?_getD]
  rcases hg : coff[i]? with _ | x
  · rfl
  · exact h x (List.getElem?_mem hg)

theorem mergeStep_coff_lines (cur : RosSymEntry) (coff : List RosSymEntry)
    (ci a b : Nat) (ob : Bool) (h : ∀ x ∈ coff, x.SourceLine = 0) :
    ∀ x ∈ (mergeStep cur coff ci a b ob).2.1, x.SourceLine = 0 := by
  by_cases hov : 0 < coff.length ∧
      (coff.getD (advanceCoffAux coff.length cur.Address ci
        (coff.drop (ci + 1))).1 zeroEntry).Address < cur.Address ∧
      a < (coff.getD (advanceCoffAux coff.length cur.Address ci
        (coff.drop (ci + 1))).1 zeroEntry).Address ∧
      (coff.getD (advanceCoffAux coff.length cur.Address ci
        (coff.drop (ci + 1))).1 zeroEntry).FunctionOffset ≠ 0
  · simp only [mergeStep, if_pos hov]
    intro x hx
    rcases List.mem_or_eq_of_mem_set hx with hm | he
    · exact h x hm
    · subst he
      exact getD_sourceLine_zero coff h _
  · simp only [mergeStep, if_neg hov]
    exact h

theorem mergeLoopAux_coff_lines :
    ∀ (rest : List RosSymEntry) (cur : RosSymEntry)
      (coff : List RosSymEntry) (ci a b : Nat) (ob : Bool),
      (∀ x ∈ coff, x.SourceLine = 0) →
      ∀ x ∈ (mergeLoopAux cur rest coff ci a b ob).2.1, x.SourceLine = 0 := by
  intro rest
  induction rest with
  | nil =>
    intro cur coff ci a b ob h
    simp only [mergeLoopAux]
    exact mergeStep_coff_lines cur coff ci a b ob h
  | cons e rest ih =>
    intro cur coff ci a b ob h
    by_cases hae : e.Address = cur.Address
    · simp only [mergeLoopAux, if_pos hae]
      exact ih (foldDup cur e) coff ci a b ob h
    · simp only [mergeLoopAux, if_neg hae]
      exact ih e _ _ _ _ _ (mergeStep_coff_lines cur coff ci a b ob h)

theorem mergeLoopAux_strictAddr :
    ∀ (rest : List RosSymEntry) (cur : RosSymEntry)
      (coff : List RosSymEntry) (ci a b : Nat) (ob : Bool),
      (∀ x ∈ rest, cur.Address ≤ x.Address) →
      rest.Pairwise (fun x y => x.Address ≤ y.Address) →
      (mergeLoopAux cur rest coff ci a b ob).1.Pairwise
        (fun x y => x.Address < y.Address) ∧
      ∀ x ∈ (mergeLoopAux cur rest coff ci a b ob).1,
        cur.Address ≤ x.Address := by
  intro rest
  induction rest with
  | nil =>
    intro cur coff ci a b ob h1 h2
    constructor
    · simp [mergeLoopAux]
    · intro x hx
      simp only [mergeLoopAux, List.mem_singleton] at hx
      subst hx
      rw [mergeStep_fst_address]
  | cons e rest ih =>
    intro cur coff ci a b ob h1 h2
    by_cases hae : e.Address = cur.Address
    · simp only [mergeLoopAux, if_pos hae]
      have h1' : ∀ x ∈ rest, (foldDup cur e).Address ≤ x.Address := by
        rw [foldDup_address]
        exact fun x hx => h1 x (List.mem_cons_of_mem e hx)
      obtain ⟨hp, hall⟩ :=
        ih (foldDup cur e) coff ci a b ob h1' (List.pairwise_cons.mp h2).2
      refine ⟨hp, fun x hx => ?_⟩
      have := hall x hx
      rw [foldDup_address] at this
      exact this
    · simp only [mergeLoopAux, if_neg hae]
      have hcur_e : cur.Address < e.Address := by
        have := h1 e (List.mem_cons_self e rest)
        omega
      obtain ⟨hp, hall⟩ :=
        ih e _ _ _ _ _ (List.pairwise_cons.mp h2).1
          (List.pairwise_cons.mp h2).2
      constructor
      · rw [List.pairwise_cons]
        constructor
        · intro x hx
          have := hall x hx
          rw [mergeStep_fst_address]
          omega
        · exact hp
      · intro x hx
        rcases List.mem_cons.mp hx with he | hm
        · subst he
          rw [mergeStep_fst_address]
        · have := hall x hm
          omega

/-- C4: for sorted input vectors — a stab vector with non-decreasing
addresses (as produced by the stab/dbghelp passes) and a coff vector whose
rows all carry `line == 0` (as every row produced by the COFF decoder does)
— the final merged table contains no two distinct rows with equal address
and equal non-zero line: the forward-collapse folds all stab rows of one
address into a single row, and every appended coff row keeps `line == 0`. -/
theorem mergedTable_noDuplicateNonzeroLine (stab coff : List RosSymEntry)
    (hs : stab.Pairwise (fun x y => x.Address ≤ y.Address))
    (hc : ∀ x ∈ coff, x.SourceLine = 0) :
    (mergeStabsAndCoffs stab coff).merged.Pairwise
      (fun x y => ¬(x.Address = y.Address ∧ x.SourceLine = y.SourceLine ∧
        x.SourceLine ≠ 0)) := by
  cases stab with
  | nil => simp [mergeStabsAndCoffs]
  | cons e rest =>
    have hsym : ∀ {x y : RosSymEntry},
        ¬(x.Address = y.Address ∧ x.SourceLine = y.SourceLine ∧
          x.SourceLine ≠ 0) →
        ¬(y.Address = x.Address ∧ y.SourceLine = x.SourceLine ∧
          y.SourceLine ≠ 0) := by
      intro x y hxy hcon
      obtain ⟨ha, hl, hn⟩ := hcon
      exact hxy ⟨ha.symm, hl.symm, by omega⟩
    show (sortSymbols _).Pairwise _
    rw [(sortSymbols_perm _).pairwise_iff hsym]
    apply List.pairwise_append.mpr
    obtain ⟨hstrict, _⟩ := mergeLoopAux_strictAddr rest e coff 0 0 0 false
      (List.pairwise_cons.mp hs).1 (List.pairwise_cons.mp hs).2
    have hlines := mergeLoopAux_coff_lines rest e coff 0 0 0 false hc
    refine ⟨hstrict.imp ?_, ?_, ?_⟩
    · intro x y hlt hcon
      omega
    · apply List.pairwise_of_forall_mem_list
      intro x hx y hy
      have hx0 := hlines x (List.mem_of_mem_filter hx)
      intro hcon
      omega
    · intro x hx y hy
      have hy0 := hlines y (List.mem_of_mem_filter hy)
      intro hcon
      omega

/-- Witness for C4 at a one-row stab vector and a one-row coff vector. -/
theorem mergedTable_noDuplicateNonzeroLine_witness :
    (mergeStabsAndCoffs [⟨4096, 0, 0, 7⟩] [⟨8192, 0, 5, 0⟩]).merged.Pairwise
      (fun x y => ¬(x.Address = y.Address ∧ x.SourceLine = y.SourceLine ∧
        x.SourceLine ≠ 0)) :=
  mergedTable_noDuplicateNonzeroLine [⟨4096, 0, 0, 7⟩] [⟨8192, 0, 5, 0⟩]
    (by decide) (by decide)

/-! ## ConvertCoffs row count (for C10) -/

theorem convertCoffsLoop_length (sections : List Nat) (strtab : List Char) :
    ∀ (syms : List CoffSymbol) (skip : Nat) (st : StringBlobState)
      (rows : List RosSymEntry) (st2 : StringBlobState),
      convertCoffsLoop sections strtab skip st syms = .ok (rows, st2) →
      rows.length = acceptedCoffCountAux skip syms := by
  intro syms
  induction syms with
  | nil =>
    intro skip st rows st2 h
    cases skip <;> simp_all [convertCoffsLoop, acceptedCoffCountAux]
  | cons e rest ih =>
    intro skip st rows st2 h
    cases skip with
    | succ k =>
      simp only [convertCoffsLoop] at h
      simp only [acceptedCoffCountAux]
      exact ih k st rows st2 h
    | zero =>
      by_cases hacc : ISFCN e.e_type ∨ e.e_sclass = C_EXT
      · rw [convertCoffsLoop, if_pos hacc] at h
        split at h
        · exact absurd h (by simp)
        · split at h
          · exact absurd h (by simp)
          · split at h
            · exact absurd h (by simp)
            · rename_i hrec
              simp only [Except.ok.injEq, Prod.mk.injEq] at h
              rw [← h.1]
              simp only [acceptedCoffCountAux, if_pos hacc, List.length_cons]
              rw [ih e.e_numaux _ _ _ hrec]
              omega
      · rw [convertCoffsLoop, if_neg hacc] at h
        simp only [acceptedCoffCountAux, if_neg hacc]
        rw [ih e.e_numaux st rows st2 h]
        omega

theorem convertCoffsLoop_lines (sections : List Nat) (strtab : List Char) :
    ∀ (syms : List CoffSymbol) (skip : Nat) (st : StringBlobState)
      (rows : List RosSymEntry) (st2 : StringBlobState),
      convertCoffsLoop sections strtab skip st syms = .ok (rows, st2) →
      ∀ x ∈ rows, x.SourceLine = 0 := by
  intro syms
  induction syms with
  | nil =>
    intro skip st rows st2 h
    cases skip <;> simp_all [convertCoffsLoop]
  | cons e rest ih =>
    intro skip st rows st2 h
    cases skip with
    | succ k =>
      simp only [convertCoffsLoop] at h
      exact ih k st rows st2 h
    | zero =>
      by_cases hacc : ISFCN e.e_type ∨ e.e_sclass = C_EXT
      · rw [convertCoffsLoop, if_pos hacc] at h
        split at h
        · exact absurd h (by simp)
        · split at h
          · exact absurd h (by simp)
          · split at h
            · exact absurd h (by simp)
            · rename_i hrec
              simp only [Except.ok.injEq, Prod.mk.injEq] at h
              intro x hx
              rw [← h.1] at hx
              rcases List.mem_cons.mp hx with he | hm
              · subst he; rfl
              · exact ih e.e_numaux _ _ _ hrec x hm
      · rw [convertCoffsLoop, if_neg hacc] at h
        exact ih e.e_numaux st rows st2 h

/-- Every row emitted by the COFF decoder (the zero sentinel included) has
`SourceLine = 0`: the coff input of the merger always satisfies the
hypothesis of the C4 theorem. -/
theorem convertCoffs_lines_zero (sections : List Nat) (strtab : List Char)
    (syms : List CoffSymbol) (blob : List Char) (out : List RosSymEntry)
    (st : StringBlobState)
    (h : convertCoffs sections strtab syms blob = .ok (out, st)) :
    ∀ x ∈ out, x.SourceLine = 0 := by
  rcases hloop : convertCoffsLoop sections strtab 0 (initStrings blob) syms
    with _ | p
  · rw [convertCoffs, convertCoffsUnsorted, hloop] at h
    exact absurd h (by simp)
  · obtain ⟨rows, st1⟩ := p
    rw [convertCoffs, convertCoffsUnsorted, hloop] at h
    simp only [Except.ok.injEq, Prod.mk.injEq] at h
    intro x hx
    rw [← h.1] at hx
    rcases List.mem_append.mp ((sortSymbols_perm _).mem_iff.mp hx) with hm | hz
    · exact convertCoffsLoop_lines sections strtab syms 0 (initStrings blob)
        rows st1 hloop x hm
    · rw [List.mem_singleton.mp hz]; rfl

/-- C10 counterexample: one accepted COFF record (`C_EXT` at 0x1000) gives
an output vector whose final entry after the qsort is the accepted row, not
the all-zero entry (the sort moves the zero sentinel to the front). -/
theorem convertCoffs_finalEntry_counterexample :
    (convertCoffs [] [] [⟨1, 0, "_f", 4096, 0, 0, 2, 0⟩]
        [NUL]).toOption.map (fun p => p.1.getLast?) =
      some (some ⟨4096, 0, 1, 0⟩) ∧
    (⟨4096, 0, 1, 0⟩ : RosSymEntry) ≠ zeroEntry := by decide

/-- C10 (amended): for a COFF symbol table on which the decoder succeeds,
the reported symbol count equals the number of accepted records plus one;
the extra entry is all-zero and is the final entry of the vector as
constructed, but the final qsort with CompareSymEntry reorders the vector
(placing the zero entry before any row with non-zero address), so it need
not be final in the decoder's output. -/
theorem convertCoffs_count_and_sentinel (sections : List Nat)
    (strtab : List Char) (syms : List CoffSymbol) (blob : List Char)
    (pre : List RosSymEntry)
    (hok : (convertCoffsUnsorted sections strtab syms blob).toOption.map
      (fun p => p.1) = some pre) :
    pre.length = acceptedCoffCount syms + 1 ∧
    pre.getLast? = some zeroEntry ∧
    (convertCoffs sections strtab syms blob).toOption.map (fun p => p.1) =
      some (sortSymbols pre) ∧
    (sortSymbols pre).length = acceptedCoffCount syms + 1 := by
  rcases hloop : convertCoffsLoop sections strtab 0 (initStrings blob) syms
    with _ | p
  · rw [convertCoffsUnsorted, hloop] at hok
    simp [Except.toOption] at hok
  · obtain ⟨rows, st⟩ := p
    rw [convertCoffsUnsorted, hloop] at hok
    have hpre : pre = rows ++ [zeroEntry] := by
      simp [Except.toOption] at hok
      exact hok.symm
    have hlen : rows.length = acceptedCoffCount syms :=
      convertCoffsLoop_length sections strtab syms 0 (initStrings blob)
        rows st hloop
    subst hpre
    refine ⟨?_, List.getLast?_concat rows, ?_, ?_⟩
    · simp [hlen]
    · rw [convertCoffs, convertCoffsUnsorted, hloop]
      rfl
    · rw [(sortSymbols_perm _).length_eq]
      simp [hlen]

/-- Witness for C10: the same one-record COFF table; the unsorted vector is
`[{0x1000,0,1,0}, zero]`, count 2 = 1 accepted + 1. -/
theorem convertCoffs_count_and_sentinel_witness :
    ([⟨4096, 0, 1, 0⟩, zeroEntry] : List RosSymEntry).length =
      acceptedCoffCount [⟨1, 0, "_f", 4096, 0, 0, 2, 0⟩] + 1 ∧
    ([⟨4096, 0, 1, 0⟩, zeroEntry] : List RosSymEntry).getLast? =
      some zeroEntry ∧
    (convertCoffs [] [] [⟨1, 0, "_f", 4096, 0, 0, 2, 0⟩]
        [NUL]).toOption.map (fun p => p.1) =
      some (sortSymbols [⟨4096, 0, 1, 0⟩, zeroEntry]) ∧
    (sortSymbols [⟨4096, 0, 1, 0⟩, zeroEntry]).length =
      acceptedCoffCount [⟨1, 0, "_f", 4096, 0, 0, 2, 0⟩] + 1 :=
  convertCoffs_count_and_sentinel [] [] [⟨1, 0, "_f", 4096, 0, 0, 2, 0⟩]
    [NUL] [⟨4096, 0, 1, 0⟩, zeroEntry] (by decide)

end Rsym
